import Mathlib

/-!
Verification development for the `helpers` repository (`functions_complete.py`).

The Python source is shallowly embedded: pure string/number helpers become
computable Lean functions over `String` / `List Char`; Python exceptions are
modeled with `Except PyExc`; a `dict.get` becomes `Option`; machine-level
details that the source never touches (IEEE floats appear only through the
fixed literal strings `str(1/10**p)`, which are tabulated) are embedded by
their observable values.

Modeling conventions, stated once:
* `str.isdigit` is modeled on ASCII digits (`Char.isDigit`); all concrete
  inputs used in theorems are ASCII.
* `str.split()` (no argument) splits on whitespace runs and drops empty
  tokens; `str.split(sep)` keeps empty tokens, like Python.
* `str.replace(',', '.')` with single-character arguments is a character map;
  `s.replace('.', '')` removes every `'.'`; `"".join(onestring)` is the
  string itself; `i.replace(i, x)` for a one-character `i` is `x`.
* Bounded recursion over lists uses an explicit fuel argument equal to the
  input length, so every definition is structurally recursive and reduces
  inside the kernel.
-/

/-- Python exception kinds that occur in `functions_complete.py`. -/
inductive PyExc where
  | timeoutException
  | noSuchElementException
  | elementNotInteractableException
  | valueError
  | typeError
  | indexError
  | keyError
  | invalidOperation
  | otherError
deriving DecidableEq, Repr

/-- The exception tuple `(TimeoutException, NoSuchElementException,
ElementNotInteractableException)` caught by the three decorators. -/
def seleniumContained : PyExc → Bool
  | .timeoutException => true
  | .noSuchElementException => true
  | .elementNotInteractableException => true
  | _ => false

/-- `wait_for` (source lines 29-36): returns the wrapped call's value, or
`None` when one of the three selenium exceptions is raised; other exceptions
propagate. Python `None` is `Option.none` in the result type. -/
def wait_for {α β : Type} (func : α → Except PyExc (Option β)) :
    α → Except PyExc (Option β) :=
  fun a =>
    match func a with
    | .ok v => .ok v
    | .error e => if seleniumContained e then .ok none else .error e

/-- `wait_for_list` (source lines 39-46): same containment, sentinel `list()`. -/
def wait_for_list {α β : Type} (func : α → Except PyExc (List β)) :
    α → Except PyExc (List β) :=
  fun a =>
    match func a with
    | .ok v => .ok v
    | .error e => if seleniumContained e then .ok [] else .error e

/-- `get_func_or_eptstr` (source lines 49-56): same containment, sentinel `''`. -/
def get_func_or_eptstr {α : Type} (func : α → Except PyExc String) :
    α → Except PyExc String :=
  fun a =>
    match func a with
    | .ok v => .ok v
    | .error e => if seleniumContained e then .ok "" else .error e

/-- Observable trace of `buffer_until_page_fully_loaded`: current fingerprint,
current poll instant, number of `time.sleep` calls, number of fingerprint
computations. -/
structure PageLoadTrace where
  md5 : String
  t : Nat
  sleeps : Nat
  hashes : Nat
deriving DecidableEq, Repr

/-- The `while changed:` loop of `buffer_until_page_fully_loaded`
(source lines 93-97), fuel-bounded. The driver is abstracted as the stream
`pages : Nat → String` of page sources over poll instants, and the digest as
an opaque `h`. -/
def whileChangedGo (h : String → String) (pages : Nat → String) :
    Nat → Bool → PageLoadTrace → Option PageLoadTrace :=
  fun fuel changed st =>
    match changed with
    | false => some st
    | true =>
      match fuel with
      | 0 => none
      | fuel + 1 =>
        let st1 : PageLoadTrace := { st with t := st.t + 1, sleeps := st.sleeps + 1 }
        let md5new := h (pages st1.t)
        whileChangedGo h pages fuel (st1.md5 != md5new)
          { st1 with md5 := md5new, hashes := st1.hashes + 1 }

/-- `buffer_until_page_fully_loaded` (source lines 90-97): hashes the page
source, initializes `changed = False`, then runs `while changed: ...`.
The Python function always returns `None`, modeled as the `Option Unit`
component; `tsleep` only feeds `time.sleep` and is ignored by the trace. -/
def buffer_until_page_fully_loaded (h : String → String) (pages : Nat → String)
    (tsleep : Nat) (fuel : Nat) : Option (Option Unit × PageLoadTrace) :=
  let _ := tsleep
  let md5 := h (pages 0)
  let changed := false
  (whileChangedGo h pages fuel changed { md5 := md5, t := 0, sleeps := 0, hashes := 1 }).map
    (fun st => (none, st))

/-- Lowercase hex character for a nibble, as produced by `bytes.hex()` /
`hexdigest()`. -/
def hexChar (n : Nat) : Char :=
  if n < 10 then Char.ofNat (48 + n) else Char.ofNat (87 + n)

/-- Two hex characters of one byte. -/
def hexByte (b : Fin 256) : List Char :=
  [hexChar (b.val / 16), hexChar (b.val % 16)]

/-- Hex encoding of a digest, as in `hexdigest()` and `bytes.hex()`. -/
def hexDigest (bs : List (Fin 256)) : String :=
  String.mk (bs.map hexByte).flatten

/-- One step of `bytes((byte + shift) % 256 for byte in hash_digest)`
(source line 308); Python `%` on ints is `Int.emod`. -/
def shiftByte (shift : Int) (b : Fin 256) : Fin 256 :=
  ⟨(((b.val : Int) + shift) % 256).toNat, by
    have h1 : (0 : Int) ≤ ((b.val : Int) + shift) % 256 :=
      Int.emod_nonneg _ (by norm_num)
    have h2 : ((b.val : Int) + shift) % 256 < 256 :=
      Int.emod_lt_of_pos _ (by norm_num)
    omega⟩

/-- `calculate_md5` (source lines 302-303). The MD5 digest itself is an
opaque parameter `md5 : String → List (Fin 256)` (16 bytes in reality; the
length plays no role in the claims). -/
def calculate_md5 (md5 : String → List (Fin 256)) (text : String) : String :=
  hexDigest (md5 text)

/-- `calculate_hash` (source lines 306-309): digest of `text + salt`, every
byte shifted by `shift` modulo 256, hex-encoded. -/
def calculate_hash (md5 : String → List (Fin 256)) (text : String)
    (salt : String) (shift : Int) : String :=
  hexDigest ((md5 (text ++ salt)).map (shiftByte shift))

/-- Model of `str.isdigit` on one character, restricted to ASCII digits
(see the header note). -/
def pyIsDigit (c : Char) : Bool :=
  c.isDigit

/-- Model of Python's whitespace set for `str.split()` / `str.strip()`. -/
def pyIsSpace (c : Char) : Bool :=
  c = ' ' || c = '\t' || c = '\n' || c = '\r' || c = '\x0b' || c = '\x0c'

/-- `s.replace(',', '.')` acting on one character. -/
def commaToDot (c : Char) : Char :=
  if c = ',' then '.' else c

/-- Boolean list-prefix test (`needle` is a prefix of `haystack`). -/
def listPre : List Char → List Char → Bool
  | [], _ => true
  | _ :: _, [] => false
  | a :: as, b :: bs => a = b && listPre as bs

/-- Model of Python's substring containment `needle in haystack`. -/
def occursB (pat : List Char) : List Char → Bool
  | [] => listPre pat []
  | c :: t => listPre pat (c :: t) || occursB pat t

/-- Model of `str.index(pat)`: index of the first occurrence, `none` when the
substring is absent (Python raises `ValueError` there; both call sites catch
it). -/
def strIdx (pat : List Char) : List Char → Option Nat
  | [] => if listPre pat [] then some 0 else none
  | c :: t => if listPre pat (c :: t) then some 0 else (strIdx pat t).map (· + 1)

/-- Prepend a character to the first piece of a split-in-progress. -/
def consHead (c : Char) : List (List Char) → List (List Char)
  | [] => [[c]]
  | h :: t => (c :: h) :: t

/-- Split at every character satisfying `p`, keeping empty pieces. -/
def pySplitAny (p : Char → Bool) : List Char → List (List Char)
  | [] => [[]]
  | c :: t => if p c then [] :: pySplitAny p t else consHead c (pySplitAny p t)

/-- Model of `str.split()` with no argument: split on whitespace runs,
discarding empty tokens. -/
def pySplitWs (l : List Char) : List (List Char) :=
  (pySplitAny pyIsSpace l).filter (fun t => !t.isEmpty)

/-- Fuel-bounded worker for `str.split(sep)` with a non-empty separator; the
fuel is the input length (each separator hit consumes at least one char). -/
def pySplitSepGo (sep : List Char) : Nat → List Char → List (List Char)
  | _, [] => [[]]
  | 0, l => [l]
  | fuel + 1, c :: t =>
    if listPre sep (c :: t) then
      [] :: pySplitSepGo sep fuel ((c :: t).drop sep.length)
    else
      consHead c (pySplitSepGo sep fuel t)

/-- Model of `str.split(sep)` for a non-empty separator (empty pieces kept,
as in Python; Python rejects an empty separator, which never occurs in the
source). -/
def pySplitSep (sep l : List Char) : List (List Char) :=
  if sep = [] then [l] else pySplitSepGo sep l.length l

/-- Remove trailing characters satisfying `p` (the right half of
`str.strip()`). -/
def pyRStrip (p : Char → Bool) : List Char → List Char
  | [] => []
  | c :: t =>
    let r := pyRStrip p t
    if r.isEmpty && p c then [] else c :: r

/-- Model of `str.strip()` with no argument. -/
def pyStripWs (l : List Char) : List Char :=
  pyRStrip pyIsSpace (l.dropWhile pyIsSpace)

/-- Numeric value of a digit string (most significant first). -/
def natOfDigits (l : List Char) : Nat :=
  l.foldl (fun a c => a * 10 + (c.toNat - 48)) 0

/-- Model of `str.isdigit` on a whole string: non-empty and all digits. -/
def pyIsDigitStr (l : List Char) : Bool :=
  !l.isEmpty && l.all pyIsDigit

/-- Continuation of `groupedDigits` after one digit has been read: further
digits, optionally separated by single underscores (PEP 515); an underscore
must be followed by a digit. -/
def groupedTail : List Char → Bool
  | [] => true
  | ['_'] => false
  | '_' :: c :: r => pyIsDigit c && groupedTail r
  | c :: r => pyIsDigit c && groupedTail r

/-- CPython's `digitpart` for `int()`: a non-empty digit run in which single
underscores may separate digits (`int("2_020") = 2020`), but may not lead,
trail, or double up. -/
def groupedDigits : List Char → Bool
  | [] => false
  | c :: r => pyIsDigit c && groupedTail r

/-- Model of `int(s)` for a `str` argument: optional surrounding whitespace,
optional sign, then a digit run with PEP 515 underscore grouping; otherwise
`ValueError`. The value ignores the underscores. -/
def pyInt (l : List Char) : Except PyExc Int :=
  match pyStripWs l with
  | '-' :: r =>
    if groupedDigits r then .ok (-(natOfDigits (r.filter (fun c => c != '_')) : Int))
    else .error .valueError
  | '+' :: r =>
    if groupedDigits r then .ok (natOfDigits (r.filter (fun c => c != '_')) : Int)
    else .error .valueError
  | r =>
    if groupedDigits r then .ok (natOfDigits (r.filter (fun c => c != '_')) : Int)
    else .error .valueError

/-- The Unicode character-name tables consumed by `normalize_char`:
`unicodedata.name` (raising `ValueError` on unnamed characters, hence
`Option`) and `unicodedata.lookup` (raising `KeyError` on unknown names). -/
structure UnicodeTables where
  name : Char → Option String
  lookup : String → Option Char

/-- The literal `' WITH'` searched by `normalize_char`. -/
def withMarker : List Char :=
  [' ', 'W', 'I', 'T', 'H']

/-- `normalize_char` (source lines 145-151): look up the character's Unicode
name, truncate it at `' WITH'`, and resolve the truncated name; any
`ValueError` / `KeyError` along the way returns the character unchanged. -/
def normalize_char (u : UnicodeTables) (c : Char) : Char :=
  match u.name c with
  | none => c
  | some cname =>
    match strIdx withMarker cname.data with
    | none => c
    | some i =>
      match u.lookup (String.mk (cname.data.take i)) with
      | none => c
      | some d => d

/-- `normalize_string` (source lines 141-142): apply `normalize_char` to every
character and concatenate (`i.replace(i, normalize_char(i))` for a
one-character `i` is `normalize_char(i)`). -/
def normalize_string (u : UnicodeTables) (s : String) : String :=
  String.mk (s.data.map (normalize_char u))

/-- `translate_word_containing_substring` (source lines 163-170): first pair
whose substring occurs in `s` (via `filter` + `next(iter(...), ('',''))`),
and `""` when none does; `"".join` of the replacement string is itself. -/
def translate_word_containing_substring (s : String)
    (translator_tuple : List (String × String)) : String :=
  ((translator_tuple.filter (fun x => occursB x.1.data s.data)).headD ("", "")).2

/-- The token filter shared by the refine functions:
`i.replace('.', '').isdigit()`. -/
def refineKeep (t : List Char) : Bool :=
  pyIsDigitStr (t.filter (fun c => c != '.'))

/-- `refine_price_val` (source lines 174-178): comma→period, whitespace split,
keep digit-and-period tokens, concatenate; `or '0'` yields `"0"` exactly when
the concatenation is empty. The body can raise nothing, so the return type is
plain `String`. -/
def refine_price_val (price_string : String) : String :=
  let refined := ((pySplitWs (price_string.data.map commaToDot)).filter refineKeep).flatten
  if refined.isEmpty then "0" else String.mk refined

/-- Catch clause `except ValueError: return 0` shared by the integer refiners. -/
def catchValueErrorZero (r : Except PyExc Int) : Except PyExc Int :=
  match r with
  | .error .valueError => .ok 0
  | x => x

/-- `refine_eng_capacity` (source lines 181-188): comma→period, strip, drop
everything from the last `"cm"` on (`split('cm')[:-1]` joined), then the same
digit-token extraction as the other refiners, `int(...)` with `ValueError`
mapped to 0. -/
def refine_eng_capacity (eng_cap_str : String) : Except PyExc Int :=
  let base := pyStripWs (eng_cap_str.data.map commaToDot)
  let ec := ((pySplitSep ['c', 'm'] base).dropLast).flatten
  let joined := ((pySplitWs (pyStripWs ec)).filter refineKeep).flatten
  catchValueErrorZero (pyInt joined)

/-- `refine_mileage` (source lines 191-197). -/
def refine_mileage (mileage_str : String) : Except PyExc Int :=
  let joined := ((pySplitWs (mileage_str.data.map commaToDot)).filter refineKeep).flatten
  catchValueErrorZero (pyInt joined)

/-- `refine_integer` (source lines 200-206); the body is textually identical
to `refine_mileage` in the source. -/
def refine_integer (integer_str : String) : Except PyExc Int :=
  let joined := ((pySplitWs (integer_str.data.map commaToDot)).filter refineKeep).flatten
  catchValueErrorZero (pyInt joined)

/-- Fuel-bounded digit count of a natural number in base 10 (`numDigits 0 = 1`),
matching the length of a `Decimal` coefficient. -/
def numDigitsGo : Nat → Nat → Nat
  | 0, _ => 1
  | fuel + 1, n => if n < 10 then 1 else numDigitsGo fuel (n / 10) + 1

/-- Digit count of a coefficient. -/
def numDigits (n : Nat) : Nat :=
  numDigitsGo n n

/-- `ROUND_HALF_EVEN`, the default `decimal` rounding: round `m / d` to the
nearest integer, ties to even (`d > 0`). -/
def roundHalfEven (m d : Nat) : Nat :=
  let q := m / d
  let r := m % d
  if 2 * r < d then q
  else if d < 2 * r then q + 1
  else if q % 2 = 0 then q else q + 1

/-- Model of a non-negative `decimal.Decimal`: value `mant * 10 ^ exp`. Every
`Decimal` built by `prep_decimal_from_string` is non-negative, so no sign
field is needed; only `exp` (the number of fractional digits when negative)
and the coefficient are observable in the claims. -/
structure PyDecimal where
  mant : Nat
  exp : Int
deriving DecidableEq, Repr

/-- `Decimal('0')`. -/
def PyDecimal.zero : PyDecimal :=
  ⟨0, 0⟩

/-- Mantissa part of a `Decimal` literal: `digits [. digits]` with at least
one digit in total (signs never reach `Decimal()` in this source). Returns
the coefficient and the count of fractional digits. -/
def parseMantissa (m : List Char) : Option (Nat × Nat) :=
  let a := m.takeWhile pyIsDigit
  match m.dropWhile pyIsDigit with
  | [] => if a.isEmpty then none else some (natOfDigits a, 0)
  | '.' :: r2 =>
    if r2.all pyIsDigit && (!a.isEmpty || !r2.isEmpty) then
      some (natOfDigits (a ++ r2), r2.length)
    else none
  | _ => none

/-- Exponent part of a `Decimal` literal: optional sign, non-empty digits. -/
def parseExpSigned (l : List Char) : Option Int :=
  match l with
  | '-' :: r => if pyIsDigitStr r then some (-(natOfDigits r : Int)) else none
  | '+' :: r => if pyIsDigitStr r then some (natOfDigits r : Int) else none
  | r => if pyIsDigitStr r then some (natOfDigits r : Int) else none

/-- Model of the `Decimal(string)` constructor on the literals this source can
produce (digits, at most one period, optional `e`-exponent); `none` means
`decimal.InvalidOperation`. -/
def PyDecimal.ofString? (l : List Char) : Option PyDecimal :=
  let mpart := l.takeWhile (fun c => !(c == 'e' || c == 'E'))
  match parseMantissa mpart, l.dropWhile (fun c => !(c == 'e' || c == 'E')) with
  | some (v, frac), [] => some ⟨v, -(frac : Int)⟩
  | some (v, frac), _ :: expChars =>
    match parseExpSigned expChars with
    | some e => some ⟨v, e - frac⟩
    | none => none
  | none, _ => none

/-- Coefficient of `Decimal.quantize`: rescale exactly when the target
exponent is below the current one, else divide with half-even rounding. -/
def quantCoeff (x : PyDecimal) (e : Int) : Nat :=
  if e ≤ x.exp then x.mant * 10 ^ (x.exp - e).toNat
  else roundHalfEven x.mant (10 ^ (e - x.exp).toNat)

/-- `Decimal.quantize` to target exponent `e` under the default context:
half-even rounding, `InvalidOperation` when the resulting coefficient would
exceed the context precision of 28 digits. -/
def PyDecimal.quantize (x : PyDecimal) (e : Int) : Except PyExc PyDecimal :=
  if numDigits (quantCoeff x e) ≤ 28 then .ok ⟨quantCoeff x e, e⟩
  else .error .invalidOperation

/-- The value of `str(1 / (10 ** p))` for `0 ≤ p ≤ 20` (CPython float repr:
positional below `1e-5`, scientific with a two-digit exponent from there). -/
def precisionStr (p : Nat) : String :=
  match p with
  | 0 => "1.0"
  | 1 => "0.1"
  | 2 => "0.01"
  | 3 => "0.001"
  | 4 => "0.0001"
  | 5 => "1e-05"
  | 6 => "1e-06"
  | 7 => "1e-07"
  | 8 => "1e-08"
  | 9 => "1e-09"
  | q => "1e-" ++ toString q

/-- `prep_decimal_from_string` (source lines 154-160): reject precision above
20 with `ValueError`; otherwise build the quantum `Decimal(str(1/10**p))`,
and quantize either `Decimal('0')` (when the text minus periods is not all
digits) or `Decimal(s)` to the quantum's exponent. The precision argument is
modeled as `Nat` (the spec and default only use non-negative precisions). -/
def prep_decimal_from_string (s : String) (precision_fp : Nat) : Except PyExc PyDecimal :=
  if 20 < precision_fp then .error .valueError
  else
    match PyDecimal.ofString? (precisionStr precision_fp).data with
    | none => .error .invalidOperation
    | some quantum =>
      if pyIsDigitStr (s.data.filter (fun c => c != '.')) then
        match PyDecimal.ofString? s.data with
        | none => .error .invalidOperation
        | some d => d.quantize quantum.exp
      else
        PyDecimal.zero.quantize quantum.exp

/-- Modelled from the spec: `func_const.Months.TRANSLATE_POLISH_TO_ENGLISH_FULL_CONJ`
(module `func_const` is not under src/) — the Polish-month-name (conjugated
form) → month-number table consumed by `format_date_string_d_mword_y`;
`dict.get` returns `None` on a missing key, hence `Option`. -/
def TRANSLATE_POLISH_TO_ENGLISH_FULL_CONJ : String → Option Nat := fun w =>
  ([("stycznia", 1), ("lutego", 2), ("marca", 3), ("kwietnia", 4),
    ("maja", 5), ("czerwca", 6), ("lipca", 7), ("sierpnia", 8),
    ("września", 9), ("października", 10), ("listopada", 11),
    ("grudnia", 12)].find? (fun p : String × Nat => p.1 == w)).map (fun p => p.2)

/-- Modelled from the spec: `func_const.Months.TRANSLATE_POLISH_TO_ENGLISH_FULL`
(module `func_const` is not under src/) — the Polish-month-name (nominative
form) → month-number table consumed by `format_date_string_mword_y`. -/
def TRANSLATE_POLISH_TO_ENGLISH_FULL : String → Option Nat := fun w =>
  ([("styczeń", 1), ("luty", 2), ("marzec", 3), ("kwiecień", 4),
    ("maj", 5), ("czerwiec", 6), ("lipiec", 7), ("sierpień", 8),
    ("wrzesień", 9), ("październik", 10), ("listopad", 11),
    ("grudzień", 12)].find? (fun p : String × Nat => p.1 == w)).map (fun p => p.2)

/-- `lst[-1]` on a Python list: `IndexError` when empty. -/
def pyLast {α : Type} (l : List α) : Except PyExc α :=
  match l.getLast? with
  | none => .error .indexError
  | some x => .ok x

/-- `lst[i]` on a Python list for a non-negative index. -/
def pyNth {α : Type} (l : List α) (i : Nat) : Except PyExc α :=
  match l.get? i with
  | none => .error .indexError
  | some x => .ok x

/-- Gregorian leap-year rule used by `datetime`. -/
def isLeap (y : Int) : Bool :=
  y % 4 = 0 && (y % 100 != 0 || y % 400 = 0)

/-- Days in a month, as validated by the `datetime` constructor. -/
def daysInMonth (y : Int) (m : Nat) : Int :=
  if m = 2 then (if isLeap y then 29 else 28)
  else if m = 4 || m = 6 || m = 9 || m = 11 then 30
  else 31

/-- The `datetime(year, month, day)` constructor: `TypeError` when the month
is `None` (a failed `dict.get`), `ValueError` when any field is out of range
(`MINYEAR = 1`, `MAXYEAR = 9999`). -/
def pyDatetime (y : Int) (m : Option Nat) (d : Int) :
    Except PyExc (Int × Nat × Int) :=
  match m with
  | none => .error .typeError
  | some mv =>
    if 1 ≤ y && y ≤ 9999 && 1 ≤ mv && mv ≤ 12 && 1 ≤ d && d ≤ daysInMonth y mv then
      .ok (y, mv, d)
    else .error .valueError

/-- Zero-pad a number to two characters (`%m` / `%d`). -/
def pad2 (n : Nat) : String :=
  if n < 10 then "0" ++ toString n else toString n

/-- Zero-pad a year to four characters (`%Y`; CPython's `strftime` padding on
the platforms the formatted range 1-9999 is produced from). -/
def pad4 (n : Nat) : String :=
  if n < 10 then "000" ++ toString n
  else if n < 100 then "00" ++ toString n
  else if n < 1000 then "0" ++ toString n
  else toString n

/-- `.strftime('%Y-%m-%d')` on a validated (year, month, day). -/
def strftimeYmd (ymd : Int × Nat × Int) : String :=
  pad4 ymd.1.toNat ++ "-" ++ pad2 ymd.2.1 ++ "-" ++ pad2 ymd.2.2.toNat

/-- One numeric `strptime` field (`%d` with `maxv = 31`, `%m` with
`maxv = 12`): the `_strptime` regexes accept a two-digit value `01..maxv`
or a single digit `1..9`, longest first. Backtracking to the one-digit
alternative can never turn a failure into a success here because the
following literal separator is never a digit. -/
def parseField (maxv : Nat) : List Char → Option (Nat × List Char)
  | [] => none
  | [a] => if pyIsDigit a && a != '0' then some (a.toNat - 48, []) else none
  | a :: b :: rest =>
    if pyIsDigit a && pyIsDigit b then
      let v := natOfDigits [a, b]
      if 1 ≤ v && v ≤ maxv then some (v, rest) else none
    else if pyIsDigit a && a != '0' then some (a.toNat - 48, b :: rest)
    else none

/-- `%Y`: exactly four digits. -/
def parseYear4 : List Char → Option (Nat × List Char)
  | a :: b :: c :: d :: rest =>
    if pyIsDigit a && pyIsDigit b && pyIsDigit c && pyIsDigit d then
      some (natOfDigits [a, b, c, d], rest)
    else none
  | _ => none

/-- `%y`: exactly two digits, mapped through the 1969/2068 century pivot. -/
def parseYear2 : List Char → Option (Nat × List Char)
  | a :: b :: rest =>
    if pyIsDigit a && pyIsDigit b then
      let v := natOfDigits [a, b]
      some (if v < 69 then 2000 + v else 1900 + v, rest)
    else none
  | _ => none

/-- Expect one literal character. -/
def parseLit (c : Char) : List Char → Option (List Char)
  | x :: rest => if x = c then some rest else none
  | [] => none

/-- `datetime.strptime(s, fmt)` for the six formats in the source:
`dayFirst` selects `%d sep %m sep YEAR` versus `YEAR sep %m sep %d`, and
`fourYear` selects `%Y` versus `%y`. Any mismatch, leftover input, or
calendar violation raises `ValueError`. -/
def strptimeDate (dayFirst : Bool) (sep : Char) (fourYear : Bool)
    (l : List Char) : Except PyExc (Int × Nat × Int) :=
  let yearField := if fourYear then parseYear4 else parseYear2
  let parsed : Option (Nat × Nat × Nat) :=
    if dayFirst then
      match parseField 31 l with
      | none => none
      | some (d, r1) =>
        match parseLit sep r1 with
        | none => none
        | some r2 =>
          match parseField 12 r2 with
          | none => none
          | some (m, r3) =>
            match parseLit sep r3 with
            | none => none
            | some r4 =>
              match yearField r4 with
              | none => none
              | some (y, r5) => if r5.isEmpty then some (y, m, d) else none
    else
      match yearField l with
      | none => none
      | some (y, r1) =>
        match parseLit sep r1 with
        | none => none
        | some r2 =>
          match parseField 12 r2 with
          | none => none
          | some (m, r3) =>
            match parseLit sep r3 with
            | none => none
            | some r4 =>
              match parseField 31 r4 with
              | none => none
              | some (d, r5) => if r5.isEmpty then some (y, m, d) else none
  match parsed with
  | none => .error .valueError
  | some (y, m, d) =>
    match pyDatetime (y : Int) (some m) (d : Int) with
    | .error _ => .error .valueError
    | .ok t => .ok t

/-- The `except (IndexError, TypeError): return ''` wrapper of the two
word-month parsers. -/
def catchIndexType (r : Except PyExc String) : Except PyExc String :=
  match r with
  | .error .indexError => .ok ""
  | .error .typeError => .ok ""
  | x => x

/-- `format_date_string_d_mword_y` (source lines 226-234). Argument
evaluation order inside `datetime(...)` follows Python: `int(date[-1])`,
then the table lookup on `date[1]`, then `int(date[0])`. Only `IndexError`
and `TypeError` are caught. -/
def format_date_string_d_mword_y (s : String) : Except PyExc String :=
  let date := pySplitWs s.data
  catchIndexType (do
    let lastTok ← pyLast date
    let y ← pyInt lastTok
    let mTok ← pyNth date 1
    let m := TRANSLATE_POLISH_TO_ENGLISH_FULL_CONJ (String.mk mTok)
    let dTok ← pyNth date 0
    let d ← pyInt dTok
    let ymd ← pyDatetime y m d
    pure (strftimeYmd ymd))

/-- `format_date_string_mword_y` (source lines 237-242): like the previous
parser but the month word is `date[0]` and the day is fixed to 1. -/
def format_date_string_mword_y (s : String) : Except PyExc String :=
  let date := pySplitWs s.data
  catchIndexType (do
    let lastTok ← pyLast date
    let y ← pyInt lastTok
    let mTok ← pyNth date 0
    let m := TRANSLATE_POLISH_TO_ENGLISH_FULL (String.mk mTok)
    let ymd ← pyDatetime y m 1
    pure (strftimeYmd ymd))

/-- `format_date_string_d_m_y` (source lines 245-259): split on `'.'` when
present else `'-'`; with exactly three components dispatch on the separator
and the length of the year component; otherwise return `''`. When all four
guarded returns are skipped the Python function falls off the `if` and
returns `None` (`Option.none`). `strptime` errors are not caught. -/
def format_date_string_d_m_y (s : String) : Except PyExc (Option String) :=
  let dotIn := occursB ['.'] s.data
  let dashIn := occursB ['-'] s.data
  let dl := if dotIn then pySplitSep ['.'] s.data else pySplitSep ['-'] s.data
  if dl.length = 3 then
    let ylen := (dl.getD 2 []).length
    if dotIn && ylen == 4 then
      (strptimeDate true '.' true s.data).map (fun t => some (strftimeYmd t))
    else if dotIn && ylen == 2 then
      (strptimeDate true '.' false s.data).map (fun t => some (strftimeYmd t))
    else if dashIn && ylen == 4 then
      (strptimeDate true '-' true s.data).map (fun t => some (strftimeYmd t))
    else if dashIn && ylen == 2 then
      (strptimeDate true '-' false s.data).map (fun t => some (strftimeYmd t))
    else .ok none
  else .ok (some "")

/-- `format_date_string_y_m_d` (source lines 262-276): same dispatch with the
year component first; the `'-'`-separated four-digit-year branch returns the
input unchanged. -/
def format_date_string_y_m_d (s : String) : Except PyExc (Option String) :=
  let dotIn := occursB ['.'] s.data
  let dashIn := occursB ['-'] s.data
  let dl := if dotIn then pySplitSep ['.'] s.data else pySplitSep ['-'] s.data
  if dl.length = 3 then
    let ylen := (dl.getD 0 []).length
    if dotIn && ylen == 4 then
      (strptimeDate false '.' true s.data).map (fun t => some (strftimeYmd t))
    else if dotIn && ylen == 2 then
      (strptimeDate false '.' false s.data).map (fun t => some (strftimeYmd t))
    else if dashIn && ylen == 4 then .ok (some s)
    else if dashIn && ylen == 2 then
      (strptimeDate false '-' false s.data).map (fun t => some (strftimeYmd t))
    else .ok none
  else .ok (some "")

/-- A two-entry Unicode table used to instantiate the idempotence theorem:
the accented character and its base. -/
def uTestName : Char → Option String := fun c =>
  if c = 'é' then some "LATIN SMALL LETTER E WITH ACUTE"
  else if c = 'e' then some "LATIN SMALL LETTER E"
  else none

/-- Lookup side of the two-entry Unicode table. -/
def uTestLookup : String → Option Char := fun t =>
  if t = "LATIN SMALL LETTER E" then some 'e' else none

/-- The two-entry Unicode table packaged. -/
def uTest : UnicodeTables :=
  ⟨uTestName, uTestLookup⟩

theorem shiftByte_zero (b : Fin 256) : shiftByte 0 b = b := by
  apply Fin.ext
  show (((b.val : Int) + 0) % 256).toNat = b.val
  rw [Int.add_zero, Int.emod_eq_of_lt (by positivity) (by exact_mod_cast b.isLt)]
  exact Int.toNat_natCast b.val

theorem shiftByte_add_256 (shift : Int) (b : Fin 256) :
    shiftByte (shift + 256) b = shiftByte shift b := by
  apply Fin.ext
  show ((((b.val : Int)) + (shift + 256)) % 256).toNat =
    (((b.val : Int) + shift) % 256).toNat
  rw [show ((b.val : Int)) + (shift + 256) = ((b.val : Int) + shift) + 256 by ring,
    Int.add_emod_self]

/-- C9: with empty salt and zero shift, `calculate_hash` coincides with
`calculate_md5`, and the byte shift is modular: adding 256 to the shift
changes nothing. Stated for an arbitrary digest function standing in for
MD5. -/
theorem calculate_hash_zero_shift_and_mod_256 (md5 : String → List (Fin 256))
    (text salt : String) (shift : Int) :
    calculate_hash md5 text "" 0 = calculate_md5 md5 text ∧
    calculate_hash md5 text salt (shift + 256) = calculate_hash md5 text salt shift := by
  constructor
  · show hexDigest ((md5 (text ++ "")).map (shiftByte 0)) = hexDigest (md5 text)
    rw [String.append_empty]
    congr 1
    calc (md5 text).map (shiftByte 0) = (md5 text).map id := by
          apply List.map_congr_left
          intro b _
          exact shiftByte_zero b
      _ = md5 text := List.map_id (md5 text)
  · show hexDigest ((md5 (text ++ salt)).map (shiftByte (shift + 256))) =
      hexDigest ((md5 (text ++ salt)).map (shiftByte shift))
    congr 1
    apply List.map_congr_left
    intro b _
    exact shiftByte_add_256 shift b

/-- C5: the `while changed:` loop of `buffer_until_page_fully_loaded` never
runs — for every driver page stream, digest function, sleep interval and
fuel, the function returns immediately (Python `None`) having computed the
fingerprint exactly once and slept zero times. -/
theorem buffer_until_page_fully_loaded_is_noop (h : String → String)
    (pages : Nat → String) (tsleep fuel : Nat) :
    buffer_until_page_fully_loaded h pages tsleep fuel =
      some (none, { md5 := h (pages 0), t := 0, sleeps := 0, hashes := 1 }) := by
  cases fuel <;> rfl

/-- C4: each decorator passes a success value through unmodified, maps exactly
the three selenium failure kinds (timeout, not-found, not-interactable) to
its sentinel (`None`, `[]`, `''`), and propagates every other exception
unchanged. -/
theorem decorators_contain_exactly_three {α β γ : Type}
    (f : α → Except PyExc (Option β)) (g : α → Except PyExc (List γ))
    (k : α → Except PyExc String) (a : α) :
    (∀ v, f a = .ok v → wait_for f a = .ok v) ∧
    (∀ v, g a = .ok v → wait_for_list g a = .ok v) ∧
    (∀ v, k a = .ok v → get_func_or_eptstr k a = .ok v) ∧
    (∀ e, f a = .error e →
      ((e = .timeoutException ∨ e = .noSuchElementException ∨
          e = .elementNotInteractableException) → wait_for f a = .ok none) ∧
      (e ≠ .timeoutException → e ≠ .noSuchElementException →
        e ≠ .elementNotInteractableException → wait_for f a = .error e)) ∧
    (∀ e, g a = .error e →
      ((e = .timeoutException ∨ e = .noSuchElementException ∨
          e = .elementNotInteractableException) → wait_for_list g a = .ok []) ∧
      (e ≠ .timeoutException → e ≠ .noSuchElementException →
        e ≠ .elementNotInteractableException → wait_for_list g a = .error e)) ∧
    (∀ e, k a = .error e →
      ((e = .timeoutException ∨ e = .noSuchElementException ∨
          e = .elementNotInteractableException) → get_func_or_eptstr k a = .ok "") ∧
      (e ≠ .timeoutException → e ≠ .noSuchElementException →
        e ≠ .elementNotInteractableException → get_func_or_eptstr k a = .error e)) := by
  refine ⟨?_, ?_, ?_, ?_, ?_, ?_⟩
  · intro v hv
    simp [wait_for, hv]
  · intro v hv
    simp [wait_for_list, hv]
  · intro v hv
    simp [get_func_or_eptstr, hv]
  · intro e he
    constructor
    · rintro (rfl | rfl | rfl) <;> simp [wait_for, he, seleniumContained]
    · intro h1 h2 h3
      have hc : seleniumContained e = false := by
        cases e <;> simp_all [seleniumContained]
      simp [wait_for, he, hc]
  · intro e he
    constructor
    · rintro (rfl | rfl | rfl) <;> simp [wait_for_list, he, seleniumContained]
    · intro h1 h2 h3
      have hc : seleniumContained e = false := by
        cases e <;> simp_all [seleniumContained]
      simp [wait_for_list, he, hc]
  · intro e he
    constructor
    · rintro (rfl | rfl | rfl) <;> simp [get_func_or_eptstr, he, seleniumContained]
    · intro h1 h2 h3
      have hc : seleniumContained e = false := by
        cases e <;> simp_all [seleniumContained]
      simp [get_func_or_eptstr, he, hc]

/-- Witness for C4 at concrete wrapped functions: a success value passes
through, a timeout maps to each sentinel, and a `ValueError` propagates. -/
theorem decorators_contain_exactly_three_witness :
    wait_for (fun _ : Unit => (.ok (some 7) : Except PyExc (Option Nat))) () = .ok (some 7) ∧
    wait_for (fun _ : Unit => (.error .timeoutException : Except PyExc (Option Nat))) () = .ok none ∧
    wait_for_list (fun _ : Unit => (.error .noSuchElementException : Except PyExc (List Nat))) () = .ok [] ∧
    get_func_or_eptstr (fun _ : Unit => (.error .elementNotInteractableException : Except PyExc String)) () = .ok "" ∧
    wait_for (fun _ : Unit => (.error .valueError : Except PyExc (Option Nat))) () = .error .valueError := by
  refine ⟨?_, ?_, ?_, ?_, ?_⟩
  · exact (decorators_contain_exactly_three
      (fun _ : Unit => (.ok (some 7) : Except PyExc (Option Nat)))
      (fun _ : Unit => (.ok [] : Except PyExc (List Nat)))
      (fun _ : Unit => (.ok "" : Except PyExc String)) ()).1 (some 7) rfl
  · exact ((decorators_contain_exactly_three
      (fun _ : Unit => (.error .timeoutException : Except PyExc (Option Nat)))
      (fun _ : Unit => (.ok [] : Except PyExc (List Nat)))
      (fun _ : Unit => (.ok "" : Except PyExc String)) ()).2.2.2.1
      .timeoutException rfl).1 (Or.inl rfl)
  · exact ((decorators_contain_exactly_three
      (fun _ : Unit => (.ok none : Except PyExc (Option Nat)))
      (fun _ : Unit => (.error .noSuchElementException : Except PyExc (List Nat)))
      (fun _ : Unit => (.ok "" : Except PyExc String)) ()).2.2.2.2.1
      .noSuchElementException rfl).1 (Or.inr (Or.inl rfl))
  · exact ((decorators_contain_exactly_three
      (fun _ : Unit => (.ok none : Except PyExc (Option Nat)))
      (fun _ : Unit => (.ok [] : Except PyExc (List Nat)))
      (fun _ : Unit => (.error .elementNotInteractableException : Except PyExc String)) ()).2.2.2.2.2
      .elementNotInteractableException rfl).1 (Or.inr (Or.inr rfl))
  · exact ((decorators_contain_exactly_three
      (fun _ : Unit => (.error .valueError : Except PyExc (Option Nat)))
      (fun _ : Unit => (.ok [] : Except PyExc (List Nat)))
      (fun _ : Unit => (.ok "" : Except PyExc String)) ()).2.2.2.1
      .valueError rfl).2 (by decide) (by decide) (by decide)

theorem listPre_append (pat l r : List Char) (h : listPre pat l = true) :
    listPre pat (l ++ r) = true := by
  induction pat generalizing l with
  | nil => rfl
  | cons a as ih =>
    cases l with
    | nil => simp [listPre] at h
    | cons b bs =>
      simp only [listPre, Bool.and_eq_true] at h ⊢
      exact ⟨h.1, ih bs h.2⟩

theorem occursB_nil_pat (l : List Char) : occursB [] l = true := by
  cases l <;> simp [occursB, listPre]

theorem occursB_cons_of (pat : List Char) (c : Char) (t : List Char)
    (h : occursB pat t = true) : occursB pat (c :: t) = true := by
  simp only [occursB, Bool.or_eq_true]
  exact Or.inr h

theorem occursB_iff_exists (pat l : List Char) :
    occursB pat l = true ↔ ∃ j, listPre pat (l.drop j) = true := by
  induction l with
  | nil =>
    simp only [occursB, List.drop_nil]
    exact ⟨fun h => ⟨0, h⟩, fun ⟨_, h⟩ => h⟩
  | cons c t ih =>
    simp only [occursB, Bool.or_eq_true]
    constructor
    · rintro (h | h)
      · exact ⟨0, h⟩
      · obtain ⟨j, hj⟩ := ih.mp h
        exact ⟨j + 1, hj⟩
    · rintro ⟨j, hj⟩
      cases j with
      | zero => exact Or.inl hj
      | succ j => exact Or.inr (ih.mpr ⟨j, hj⟩)

theorem listPre_of_take (pat : List Char) (k : Nat) (l : List Char)
    (h : listPre pat (l.take k) = true) : listPre pat l = true := by
  induction pat generalizing k l with
  | nil => rfl
  | cons a as ih =>
    cases k with
    | zero => simp [listPre] at h
    | succ k =>
      cases l with
      | nil => simp [listPre] at h
      | cons b bs =>
        simp only [List.take_succ_cons, listPre, Bool.and_eq_true] at h ⊢
        exact ⟨h.1, ih k bs h.2⟩

theorem listPre_ne_nil (a : Char) (as y : List Char)
    (h : listPre (a :: as) y = true) : y ≠ [] := by
  cases y with
  | nil => simp [listPre] at h
  | cons _ _ => simp

theorem occursB_append_right (pat x d : List Char) (h : occursB pat x = true) :
    occursB pat (x ++ d) = true := by
  induction x with
  | nil =>
    have hp : pat = [] := by
      cases pat with
      | nil => rfl
      | cons a as => simp [occursB, listPre] at h
    rw [hp]
    exact occursB_nil_pat _
  | cons c t ih =>
    simp only [occursB, Bool.or_eq_true] at h
    rcases h with h | h
    · simp only [List.cons_append, occursB, Bool.or_eq_true]
      exact Or.inl (listPre_append _ _ _ h)
    · simp only [List.cons_append]
      exact occursB_cons_of _ _ _ (ih h)

theorem occursB_dropWhile (pat : List Char) (p : Char → Bool) (l : List Char)
    (h : occursB pat (l.dropWhile p) = true) : occursB pat l = true := by
  induction l with
  | nil => simpa using h
  | cons c t ih =>
    by_cases hc : p c
    · rw [List.dropWhile_cons_of_pos hc] at h
      exact occursB_cons_of _ _ _ (ih h)
    · rwa [List.dropWhile_cons_of_neg hc] at h

theorem pyRStrip_append_eq (p : Char → Bool) (l : List Char) :
    ∃ d, pyRStrip p l ++ d = l := by
  induction l with
  | nil => exact ⟨[], rfl⟩
  | cons c t ih =>
    obtain ⟨d, hd⟩ := ih
    simp only [pyRStrip]
    split_ifs with hcond
    · exact ⟨c :: t, rfl⟩
    · exact ⟨d, by rw [List.cons_append, hd]⟩

theorem occursB_pyRStrip (pat : List Char) (p : Char → Bool) (l : List Char)
    (h : occursB pat (pyRStrip p l) = true) : occursB pat l = true := by
  obtain ⟨d, hd⟩ := pyRStrip_append_eq p l
  rw [← hd]
  exact occursB_append_right _ _ _ h

theorem occursB_pyStripWs (pat l : List Char)
    (h : occursB pat (pyStripWs l) = true) : occursB pat l = true :=
  occursB_dropWhile pat pyIsSpace l (occursB_pyRStrip pat pyIsSpace _ h)

theorem pySplitSepGo_no_occur (sep : List Char) (fuel : Nat) (l : List Char)
    (h : occursB sep l = false) : pySplitSepGo sep fuel l = [l] := by
  induction fuel generalizing l with
  | zero => cases l <;> rfl
  | succ fuel ih =>
    cases l with
    | nil => rfl
    | cons c t =>
      simp only [occursB, Bool.or_eq_false_iff] at h
      simp only [pySplitSepGo, h.1, ih t h.2, consHead]
      simp

theorem pySplitSep_no_occur (sep l : List Char) (hsep : sep ≠ [])
    (h : occursB sep l = false) : pySplitSep sep l = [l] := by
  rw [pySplitSep, if_neg hsep]
  exact pySplitSepGo_no_occur sep l.length l h

theorem consHead_chars (c : Char) (L : List (List Char)) (t : List Char)
    (ht : t ∈ consHead c L) (x : Char) (hx : x ∈ t) :
    x = c ∨ ∃ u ∈ L, x ∈ u := by
  cases L with
  | nil =>
    simp only [consHead, List.mem_singleton] at ht
    subst ht
    simp only [List.mem_singleton] at hx
    exact Or.inl hx
  | cons h tl =>
    simp only [consHead, List.mem_cons] at ht
    rcases ht with rfl | ht
    · rcases List.mem_cons.mp hx with rfl | hx
      · exact Or.inl rfl
      · exact Or.inr ⟨h, List.mem_cons_self h tl, hx⟩
    · exact Or.inr ⟨t, List.mem_cons_of_mem h ht, hx⟩

theorem pySplitAny_chars (p : Char → Bool) (l : List Char) (t : List Char)
    (ht : t ∈ pySplitAny p l) (x : Char) (hx : x ∈ t) : x ∈ l := by
  induction l generalizing t with
  | nil =>
    simp only [pySplitAny, List.mem_singleton] at ht
    subst ht
    simp at hx
  | cons c rest ih =>
    simp only [pySplitAny] at ht
    split_ifs at ht with hc
    · rcases List.mem_cons.mp ht with rfl | ht
      · simp at hx
      · exact List.mem_cons_of_mem c (ih t ht hx)
    · rcases consHead_chars c _ t ht x hx with rfl | ⟨u, hu, hxu⟩
      · exact List.mem_cons_self x rest
      · exact List.mem_cons_of_mem c (ih u hu hxu)

theorem pySplitWs_chars (l t : List Char) (ht : t ∈ pySplitWs l) (x : Char)
    (hx : x ∈ t) : x ∈ l :=
  pySplitAny_chars pyIsSpace l t (List.mem_of_mem_filter ht) x hx

theorem mem_of_digit_mem_map_commaToDot (l : List Char) (c : Char)
    (hc : c ∈ l.map commaToDot) (hd : pyIsDigit c = true) : c ∈ l := by
  obtain ⟨c0, hc0, heq⟩ := List.mem_map.mp hc
  by_cases h0 : c0 = ','
  · rw [h0] at heq
    simp only [commaToDot, if_pos rfl] at heq
    rw [← heq] at hd
    simp [pyIsDigit, Char.isDigit] at hd
  · rw [commaToDot, if_neg h0] at heq
    rwa [← heq]

theorem pyInt_nil : pyInt [] = .error .valueError := rfl

theorem pyInt_ok_or_valueError (l : List Char) :
    pyInt l = .error .valueError ∨ ∃ n, pyInt l = .ok n := by
  unfold pyInt
  split <;> split_ifs <;> simp

theorem catchValueErrorZero_ok (r : Except PyExc Int)
    (h : r = .error .valueError ∨ ∃ n, r = .ok n) :
    ∃ n, catchValueErrorZero r = .ok n := by
  rcases h with rfl | ⟨n, rfl⟩
  · exact ⟨0, rfl⟩
  · exact ⟨n, rfl⟩

theorem digitless_joined (l : List Char) (h : ∀ c ∈ l, pyIsDigit c = false) :
    ((pySplitWs (l.map commaToDot)).filter refineKeep).flatten = ([] : List Char) := by
  have hfil : (pySplitWs (l.map commaToDot)).filter refineKeep = [] := by
    apply List.filter_eq_nil_iff.mpr
    intro t ht hk
    unfold refineKeep pyIsDigitStr at hk
    simp only [Bool.and_eq_true, Bool.not_eq_true'] at hk
    obtain ⟨hne, hall⟩ := hk
    have hne2 : List.filter (fun c => c != '.') t ≠ [] := by
      intro hnil
      rw [hnil] at hne
      simp at hne
    obtain ⟨c, hc⟩ := List.exists_mem_of_ne_nil _ hne2
    have hcd : pyIsDigit c = true := (List.all_eq_true.mp hall) c hc
    have hct : c ∈ t := List.mem_of_mem_filter hc
    have hcm : c ∈ l.map commaToDot := pySplitWs_chars _ t ht c hct
    have hcl : c ∈ l := mem_of_digit_mem_map_commaToDot l c hcm hcd
    rw [h c hcl] at hcd
    exact absurd hcd (by simp)
  rw [hfil]
  rfl

/-- C3: `refine_integer` and `refine_mileage` never raise (every call returns
an `.ok` value; the only possible internal exception, `int()`'s `ValueError`,
is caught), `refine_price_val`'s body is exception-free by construction
(plain `String` return type), and on input containing no digit each returns
`0`, `0` and `"0"` respectively. -/
theorem refiners_never_raise_and_zero_on_digitless (s : String) :
    (∃ n, refine_integer s = .ok n) ∧ (∃ n, refine_mileage s = .ok n) ∧
    ((∀ c ∈ s.data, pyIsDigit c = false) →
      refine_integer s = .ok 0 ∧ refine_mileage s = .ok 0 ∧
        refine_price_val s = "0") := by
  refine ⟨?_, ?_, ?_⟩
  · exact catchValueErrorZero_ok _ (pyInt_ok_or_valueError _)
  · exact catchValueErrorZero_ok _ (pyInt_ok_or_valueError _)
  · intro h
    have hj := digitless_joined s.data h
    refine ⟨?_, ?_, ?_⟩
    · simp only [refine_integer, hj, pyInt_nil]
      rfl
    · simp only [refine_mileage, hj, pyInt_nil]
      rfl
    · simp only [refine_price_val, hj]
      rfl

/-- Witness for C3 at the digit-free input `"zł - km?"`. -/
theorem refiners_never_raise_and_zero_on_digitless_witness :
    refine_integer "zł - km?" = .ok 0 ∧ refine_mileage "zł - km?" = .ok 0 ∧
      refine_price_val "zł - km?" = "0" :=
  (refiners_never_raise_and_zero_on_digitless "zł - km?").2.2 (by decide)

/-- C8: `translate_word_containing_substring` returns the replacement of the
first pair (in pair order) whose substring occurs in `s`, and `""` when no
pair's substring occurs. -/
theorem translate_word_first_match (s : String) (tt : List (String × String)) :
    ((∀ p ∈ tt, occursB p.1.data s.data = false) →
      translate_word_containing_substring s tt = "") ∧
    (∀ i p, tt.get? i = some p → occursB p.1.data s.data = true →
      (∀ j q, j < i → tt.get? j = some q → occursB q.1.data s.data = false) →
      translate_word_containing_substring s tt = p.2) := by
  induction tt with
  | nil =>
    constructor
    · intro _
      rfl
    · intro i p hp
      simp at hp
  | cons a rest ih =>
    constructor
    · intro h
      have ha : occursB a.1.data s.data = false := h a (List.mem_cons_self a rest)
      have hrest : ∀ p ∈ rest, occursB p.1.data s.data = false :=
        fun p hp => h p (List.mem_cons_of_mem a hp)
      show ((List.filter _ (a :: rest)).headD ("", "")).2 = ""
      rw [List.filter_cons_of_neg (by simp [ha])]
      exact ih.1 hrest
    · intro i p hp hocc hmin
      cases i with
      | zero =>
        simp only [List.get?] at hp
        injection hp with hp
        subst hp
        show ((List.filter _ (a :: rest)).headD ("", "")).2 = a.2
        rw [List.filter_cons_of_pos (by simp [hocc])]
        rfl
      | succ i =>
        have ha : occursB a.1.data s.data = false :=
          hmin 0 a (Nat.succ_pos i) rfl
        show ((List.filter _ (a :: rest)).headD ("", "")).2 = p.2
        rw [List.filter_cons_of_neg (by simp [ha])]
        exact ih.2 i p hp hocc
          (fun j q hj hq => hmin (j + 1) q (Nat.succ_lt_succ hj) hq)

/-- Witness for C8: the spec's own example, pairs
`[("abc","X"),("b","Y")]` against `"xabcx"` yield `"X"`. -/
theorem translate_word_first_match_witness :
    translate_word_containing_substring "xabcx" [("abc", "X"), ("b", "Y")] = "X" :=
  (translate_word_first_match "xabcx" [("abc", "X"), ("b", "Y")]).2 0 ("abc", "X")
    rfl (by decide) (fun j q hj _ => absurd hj (Nat.not_lt_zero j))

theorem listPre_cm_map (l : List Char)
    (h : listPre ['c', 'm'] (l.map commaToDot) = true) :
    listPre ['c', 'm'] l = true := by
  match l with
  | [] => simp [listPre] at h
  | [a] => simp [listPre] at h
  | a :: b :: t =>
    simp only [List.map_cons, listPre, Bool.and_eq_true] at h ⊢
    obtain ⟨ha, hb, _⟩ := h
    have ha2 : a = 'c' := by
      by_cases hcomma : a = ','
      · rw [hcomma] at ha
        simp [commaToDot] at ha
      · rw [commaToDot, if_neg hcomma] at ha
        exact (of_decide_eq_true ha).symm
    have hb2 : b = 'm' := by
      by_cases hcomma : b = ','
      · rw [hcomma] at hb
        simp [commaToDot] at hb
      · rw [commaToDot, if_neg hcomma] at hb
        exact (of_decide_eq_true hb).symm
    simp [ha2, hb2]

theorem occursB_cm_map (l : List Char)
    (h : occursB ['c', 'm'] (l.map commaToDot) = true) :
    occursB ['c', 'm'] l = true := by
  induction l with
  | nil => simp [occursB, listPre] at h
  | cons c t ih =>
    simp only [List.map_cons, occursB, Bool.or_eq_true] at h ⊢
    rcases h with h | h
    · exact Or.inl (listPre_cm_map (c :: t) (by simpa using h))
    · exact Or.inr (ih h)

/-- C10: for every input without the substring `"cm"`, `refine_eng_capacity`
returns 0 — the `split('cm')[:-1]` step discards the entire string, so even
an all-digit input like `"1598"` yields 0. -/
theorem refine_eng_capacity_zero_without_cm (s : String)
    (h : occursB ['c', 'm'] s.data = false) :
    refine_eng_capacity s = .ok 0 := by
  have hbase : occursB ['c', 'm'] (pyStripWs (s.data.map commaToDot)) = false := by
    by_contra htrue
    rw [Bool.not_eq_false] at htrue
    have := occursB_cm_map s.data (occursB_pyStripWs _ _ htrue)
    rw [h] at this
    exact absurd this (by simp)
  simp only [refine_eng_capacity,
    pySplitSep_no_occur ['c', 'm'] _ (by simp) hbase]
  rfl

/-- Witness for C10 at the all-digit input `"1598"`. -/
theorem refine_eng_capacity_zero_without_cm_witness :
    refine_eng_capacity "1598" = .ok 0 :=
  refine_eng_capacity_zero_without_cm "1598" (by decide)

/-- C7: a string with no period that splits on `'-'` into exactly three
components, the first of length 4, is returned unchanged by
`format_date_string_y_m_d` — no reformatting and no calendar validation. -/
theorem format_date_string_y_m_d_passthrough (s : String) (a b c : List Char)
    (hdot : occursB ['.'] s.data = false)
    (hsplit : pySplitSep ['-'] s.data = [a, b, c])
    (hlen : a.length = 4) :
    format_date_string_y_m_d s = .ok (some s) := by
  have hdash : occursB ['-'] s.data = true := by
    by_contra hfalse
    rw [Bool.not_eq_true] at hfalse
    rw [pySplitSep_no_occur ['-'] s.data (by simp) hfalse] at hsplit
    simp at hsplit
  simp [format_date_string_y_m_d, hdot, hsplit, hdash, hlen]

/-- Witness for C7 at `"abcd-13-99"`, which is not a calendar date and not
even numeric. -/
theorem format_date_string_y_m_d_passthrough_witness :
    format_date_string_y_m_d "abcd-13-99" = .ok (some "abcd-13-99") :=
  format_date_string_y_m_d_passthrough "abcd-13-99"
    ['a', 'b', 'c', 'd'] ['1', '3'] ['9', '9'] (by decide) (by decide) (by decide)

theorem strIdx_min (pat l : List Char) (i : Nat) (h : strIdx pat l = some i) :
    ∀ j, j < i → listPre pat (l.drop j) = false := by
  induction l generalizing i with
  | nil =>
    intro j hj
    simp only [strIdx] at h
    split_ifs at h
    · injection h with h
      omega
  | cons c t ih =>
    intro j hj
    simp only [strIdx] at h
    split_ifs at h with hpre
    · injection h with h
      omega
    · obtain ⟨i0, hi0, hh⟩ := Option.map_eq_some'.mp h
      cases j with
      | zero =>
        simpa using hpre
      | succ j =>
        exact ih i0 hi0 j (by omega)

theorem strIdx_none_iff (pat l : List Char) :
    strIdx pat l = none ↔ occursB pat l = false := by
  induction l with
  | nil =>
    simp only [strIdx, occursB]
    split_ifs with hpre
    · simp [hpre]
    · simp [hpre]
  | cons c t ih =>
    simp only [strIdx, occursB]
    split_ifs with hpre
    · simp [hpre]
    · simp only [hpre, Bool.false_or, Option.map_eq_none', ih]

theorem no_occurs_in_truncated (pat l : List Char) (i : Nat)
    (hpat : pat ≠ []) (h : strIdx pat l = some i) :
    occursB pat (l.take i) = false := by
  by_contra htrue
  rw [Bool.not_eq_false] at htrue
  obtain ⟨j, hj⟩ := (occursB_iff_exists pat (l.take i)).mp htrue
  rw [List.drop_take] at hj
  have hjl : listPre pat (l.drop j) = true := listPre_of_take pat (i - j) _ hj
  have hji : j < i := by
    obtain ⟨a, as, rfl⟩ := List.exists_cons_of_ne_nil hpat
    have hne := listPre_ne_nil a as _ hj
    have : i - j ≠ 0 := by
      intro h0
      rw [h0, List.take_zero] at hne
      exact hne rfl
    omega
  rw [strIdx_min pat l i h j hji] at hjl
  exact absurd hjl (by simp)

theorem normalize_char_of_name_none (u : UnicodeTables) (c : Char)
    (hname : u.name c = none) : normalize_char u c = c := by
  simp only [normalize_char, hname]

theorem normalize_char_of_no_with (u : UnicodeTables) (c : Char) (cname : String)
    (hname : u.name c = some cname)
    (hidx : strIdx withMarker cname.data = none) : normalize_char u c = c := by
  simp only [normalize_char, hname, hidx]

theorem normalize_char_of_no_lookup (u : UnicodeTables) (c : Char)
    (cname : String) (i : Nat) (hname : u.name c = some cname)
    (hidx : strIdx withMarker cname.data = some i)
    (hlook : u.lookup (String.mk (cname.data.take i)) = none) :
    normalize_char u c = c := by
  simp only [normalize_char, hname, hidx, hlook]

theorem normalize_char_of_lookup (u : UnicodeTables) (c d : Char)
    (cname : String) (i : Nat) (hname : u.name c = some cname)
    (hidx : strIdx withMarker cname.data = some i)
    (hlook : u.lookup (String.mk (cname.data.take i)) = some d) :
    normalize_char u c = d := by
  simp only [normalize_char, hname, hidx, hlook]

theorem normalize_char_fixpoint (u : UnicodeTables)
    (hu : ∀ t c, u.lookup t = some c → u.name c = some t) (c : Char) :
    normalize_char u (normalize_char u c) = normalize_char u c := by
  cases hname : u.name c with
  | none =>
    have h1 := normalize_char_of_name_none u c hname
    rw [h1]
    exact h1
  | some cname =>
    cases hidx : strIdx withMarker cname.data with
    | none =>
      have h1 := normalize_char_of_no_with u c cname hname hidx
      rw [h1]
      exact h1
    | some i =>
      cases hlook : u.lookup (String.mk (cname.data.take i)) with
      | none =>
        have h1 := normalize_char_of_no_lookup u c cname i hname hidx hlook
        rw [h1]
        exact h1
      | some d =>
        have h1 := normalize_char_of_lookup u c d cname i hname hidx hlook
        rw [h1]
        have hdname : u.name d = some (String.mk (cname.data.take i)) :=
          hu _ d hlook
        have hocc : occursB withMarker (cname.data.take i) = false :=
          no_occurs_in_truncated withMarker cname.data i (by simp [withMarker]) hidx
        have hidx2 : strIdx withMarker (String.mk (cname.data.take i)).data = none :=
          (strIdx_none_iff _ _).mpr hocc
        exact normalize_char_of_no_with u d _ hdname hidx2

/-- C6: `normalize_string` is idempotent, for any Unicode tables in which
`lookup` returns a character carrying the queried name (the consistency that
`unicodedata.lookup` / `unicodedata.name` provide). -/
theorem normalize_string_idempotent (u : UnicodeTables)
    (hu : ∀ t c, u.lookup t = some c → u.name c = some t) (s : String) :
    normalize_string u (normalize_string u s) = normalize_string u s := by
  show String.mk (((s.data.map (normalize_char u))).map (normalize_char u)) =
    String.mk (s.data.map (normalize_char u))
  rw [List.map_map]
  congr 1
  apply List.map_congr_left
  intro c _
  exact normalize_char_fixpoint u hu c

/-- Witness for C6 on the two-entry table `uTest` and the accented input. -/
theorem normalize_string_idempotent_witness :
    normalize_string uTest (normalize_string uTest "éé!") =
      normalize_string uTest "éé!" := by
  apply normalize_string_idempotent uTest
  intro t c h
  by_cases ht : t = "LATIN SMALL LETTER E"
  · have hc : c = 'e' := by
      rw [ht] at h
      simp only [uTest, uTestLookup, if_pos rfl] at h
      injection h with h
      exact h.symm
    rw [ht, hc]
    rfl
  · simp only [uTest, uTestLookup, if_neg ht] at h
    exact absurd h (by simp)

/-- C1 counterexample: on `"a b"` — wrong shape with non-numeric components —
`format_date_string_d_mword_y` does not return `""`: `int(date[-1])` raises
`ValueError`, which the `except (IndexError, TypeError)` clause does not
catch, so the exception escapes. -/
theorem format_date_string_d_mword_y_raises_valueError :
    format_date_string_d_mword_y "a b" = .error .valueError := by rfl

/-- C1 amended: each parser returns `""` on an empty token list, both word
parsers return `""` on an unknown month name when the numeric tokens parse
as integers, and both numeric parsers return `""` when the separator split
does not have exactly three components; but a token that fails integer
parsing raises `ValueError` uncaught, and both numeric parsers return `None`
(not `""`) when there are three components whose year component has length
other than 2 or 4 (whichever separator was split on). -/
theorem date_parsers_sentinel_amended :
    (∀ s : String, pySplitWs s.data = [] →
      format_date_string_d_mword_y s = .ok "" ∧
        format_date_string_mword_y s = .ok "") ∧
    (∀ (s : String) (date : List (List Char)) (lastTok : List Char) (y : Int)
        (mTok dTok : List Char) (d : Int),
      pySplitWs s.data = date → pyLast date = .ok lastTok →
      pyInt lastTok = .ok y → pyNth date 1 = .ok mTok →
      TRANSLATE_POLISH_TO_ENGLISH_FULL_CONJ (String.mk mTok) = none →
      pyNth date 0 = .ok dTok → pyInt dTok = .ok d →
      format_date_string_d_mword_y s = .ok "") ∧
    (∀ (s : String) (date : List (List Char)) (lastTok : List Char) (y : Int)
        (mTok : List Char),
      pySplitWs s.data = date → pyLast date = .ok lastTok →
      pyInt lastTok = .ok y → pyNth date 0 = .ok mTok →
      TRANSLATE_POLISH_TO_ENGLISH_FULL (String.mk mTok) = none →
      format_date_string_mword_y s = .ok "") ∧
    (∀ s : String,
      (if occursB ['.'] s.data = true then pySplitSep ['.'] s.data
        else pySplitSep ['-'] s.data).length ≠ 3 →
      format_date_string_d_m_y s = .ok (some "") ∧
        format_date_string_y_m_d s = .ok (some "")) ∧
    (∀ (s : String) (date : List (List Char)) (lastTok : List Char),
      pySplitWs s.data = date → pyLast date = .ok lastTok →
      pyInt lastTok = .error .valueError →
      format_date_string_d_mword_y s = .error .valueError ∧
        format_date_string_mword_y s = .error .valueError) ∧
    (∀ (s : String) (dl : List (List Char)),
      (if occursB ['.'] s.data = true then pySplitSep ['.'] s.data
        else pySplitSep ['-'] s.data) = dl →
      dl.length = 3 → (dl.getD 2 []).length ≠ 4 → (dl.getD 2 []).length ≠ 2 →
      format_date_string_d_m_y s = .ok none) ∧
    (∀ (s : String) (dl : List (List Char)),
      (if occursB ['.'] s.data = true then pySplitSep ['.'] s.data
        else pySplitSep ['-'] s.data) = dl →
      dl.length = 3 → (dl.getD 0 []).length ≠ 4 → (dl.getD 0 []).length ≠ 2 →
      format_date_string_y_m_d s = .ok none) := by
  refine ⟨?_, ?_, ?_, ?_, ?_, ?_, ?_⟩
  · intro s h
    constructor
    · simp only [format_date_string_d_mword_y, h]
      rfl
    · simp only [format_date_string_mword_y, h]
      rfl
  · intro s date lastTok y mTok dTok d hsplit hlast hy hm hnone hd0 hd
    simp only [format_date_string_d_mword_y, hsplit, bind, Except.bind, hlast,
      hy, hm, hnone, hd0, hd, pyDatetime, catchIndexType]
  · intro s date lastTok y mTok hsplit hlast hy hm hnone
    simp only [format_date_string_mword_y, hsplit, bind, Except.bind, hlast,
      hy, hm, hnone, pyDatetime, catchIndexType]
  · intro s h
    constructor
    · simp only [format_date_string_d_m_y]
      rw [if_neg h]
    · simp only [format_date_string_y_m_d]
      rw [if_neg h]
  · intro s date lastTok hsplit hlast hint
    constructor
    · simp only [format_date_string_d_mword_y, hsplit, bind, Except.bind,
        hlast, hint, catchIndexType]
    · simp only [format_date_string_mword_y, hsplit, bind, Except.bind,
        hlast, hint, catchIndexType]
  · intro s dl hdl h3 h4 h2
    have e4 : ((dl.getD 2 []).length == 4) = false := beq_eq_false_iff_ne.mpr h4
    have e2 : ((dl.getD 2 []).length == 2) = false := beq_eq_false_iff_ne.mpr h2
    simp only [format_date_string_d_m_y, hdl, if_pos h3, e4, e2,
      Bool.and_false, Bool.false_eq_true, if_false]
  · intro s dl hdl h3 h4 h2
    have e4 : ((dl.getD 0 []).length == 4) = false := beq_eq_false_iff_ne.mpr h4
    have e2 : ((dl.getD 0 []).length == 2) = false := beq_eq_false_iff_ne.mpr h2
    simp only [format_date_string_y_m_d, hdl, if_pos h3, e4, e2,
      Bool.and_false, Bool.false_eq_true, if_false]

/-- Witness for C1's amended statement: the unknown month name `"xyz"` with
numeric day and year yields `""`. -/
theorem date_parsers_sentinel_amended_witness :
    format_date_string_d_mword_y "7 xyz 2020" = .ok "" :=
  date_parsers_sentinel_amended.2.1 "7 xyz 2020"
    [['7'], ['x', 'y', 'z'], ['2', '0', '2', '0']] ['2', '0', '2', '0'] 2020
    ['x', 'y', 'z'] ['7'] 7 (by decide) rfl rfl rfl rfl rfl rfl

theorem precision_quantum (p : Nat) (hp : p < 21) :
    PyDecimal.ofString? (precisionStr p).data =
      some ⟨if p = 0 then 10 else 1, if p = 0 then -1 else -(p : Int)⟩ := by
  exact (by decide :
    ∀ q < 21, PyDecimal.ofString? (precisionStr q).data =
      some ⟨if q = 0 then 10 else 1, if q = 0 then -1 else -(q : Int)⟩) p hp

theorem quantize_ok_exp (x : PyDecimal) (e : Int) (y : PyDecimal)
    (h : x.quantize e = .ok y) : y.exp = e := by
  unfold PyDecimal.quantize at h
  split_ifs at h
  injection h with h
  rw [← h]

theorem quantCoeff_zero (e : Int) : quantCoeff PyDecimal.zero e = 0 := by
  unfold quantCoeff PyDecimal.zero
  split_ifs
  · simp
  · simp [roundHalfEven, Nat.zero_div, Nat.zero_mod]

theorem quantize_zero (e : Int) :
    PyDecimal.zero.quantize e = .ok ⟨0, e⟩ := by
  unfold PyDecimal.quantize
  rw [quantCoeff_zero]
  rw [if_pos (by decide : numDigits 0 ≤ 28)]

/-- C2 counterexample: the all-digit check lets `"1.2.3"` through (periods
removed it is `"123"`), but `Decimal("1.2.3")` is not a valid literal, so
`prep_decimal_from_string` raises `decimal.InvalidOperation` — an exception
other than the precision `ValueError`, contradicting both the "iff" and the
"no other exception" parts of the claim. -/
theorem prep_decimal_from_string_invalid_operation :
    prep_decimal_from_string "1.2.3" 2 = .error .invalidOperation := by rfl

/-- C2 amended: `prep_decimal_from_string` raises `ValueError` when the
precision exceeds 20; for precisions 1..20 a text failing the digit check
yields zero quantized to exactly `p` fractional digits, a parseable digit
text is quantized to exactly `p` fractional digits (when the quantized
coefficient fits the 28-digit context), but a text passing the digit check
that is not a single decimal literal raises `InvalidOperation`; and at
precision 0 every returned value carries one fractional digit (exponent -1),
not zero, because `str(1/10**0)` is `"1.0"`. -/
theorem prep_decimal_from_string_amended :
    (∀ (s : String) (p : Nat), 20 < p →
      prep_decimal_from_string s p = .error .valueError) ∧
    (∀ (s : String) (p : Nat), 1 ≤ p → p ≤ 20 →
      pyIsDigitStr (s.data.filter (fun c => c != '.')) = false →
      prep_decimal_from_string s p = .ok ⟨0, -(p : Int)⟩) ∧
    (∀ (s : String) (p : Nat) (d d' : PyDecimal), 1 ≤ p → p ≤ 20 →
      pyIsDigitStr (s.data.filter (fun c => c != '.')) = true →
      PyDecimal.ofString? s.data = some d →
      d.quantize (-(p : Int)) = .ok d' →
      prep_decimal_from_string s p = .ok d' ∧ d'.exp = -(p : Int)) ∧
    (∀ (s : String) (p : Nat), p ≤ 20 →
      pyIsDigitStr (s.data.filter (fun c => c != '.')) = true →
      PyDecimal.ofString? s.data = none →
      prep_decimal_from_string s p = .error .invalidOperation) ∧
    (∀ (s : String) (d : PyDecimal), prep_decimal_from_string s 0 = .ok d →
      d.exp = -1) := by
  refine ⟨?_, ?_, ?_, ?_, ?_⟩
  · intro s p hp
    simp [prep_decimal_from_string, hp]
  · intro s p h1 h20 hdig
    have hq := precision_quantum p (by omega)
    have hp0 : p ≠ 0 := by omega
    rw [if_neg hp0] at hq
    simp only [if_neg hp0] at hq
    simp only [prep_decimal_from_string, if_neg (by omega : ¬ 20 < p), hq, hdig]
    simp only [Bool.false_eq_true, if_false]
    exact quantize_zero _
  · intro s p d d' h1 h20 hdig hof hquant
    have hq := precision_quantum p (by omega)
    have hp0 : p ≠ 0 := by omega
    rw [if_neg hp0] at hq
    simp only [if_neg hp0] at hq
    constructor
    · simp only [prep_decimal_from_string, if_neg (by omega : ¬ 20 < p), hq,
        hdig, if_true, hof]
      exact hquant
    · exact quantize_ok_exp d _ d' hquant
  · intro s p h20 hdig hof
    have hq := precision_quantum p (by omega)
    simp only [prep_decimal_from_string, if_neg (by omega : ¬ 20 < p), hq,
      hdig, if_true, hof]
  · intro s d h
    have hq : PyDecimal.ofString? (precisionStr 0).data = some ⟨10, -1⟩ := by
      decide
    simp only [prep_decimal_from_string, (by norm_num : ¬ (20 : Nat) < 0),
      if_false, hq] at h
    by_cases hb : pyIsDigitStr (s.data.filter (fun c => c != '.')) = true
    · rw [if_pos hb] at h
      cases hof : PyDecimal.ofString? s.data with
      | none =>
        rw [hof] at h
        exact absurd h (by simp)
      | some x =>
        rw [hof] at h
        exact quantize_ok_exp x _ d h
    · rw [if_neg hb] at h
      rw [quantize_zero (-1)] at h
      injection h with h
      rw [← h]

/-- Witness for C2's amended statement: `"12.345"` at precision 2 parses and
quantizes half-even to coefficient 1234, exponent -2 (the Python value
`Decimal('12.34')`). -/
theorem prep_decimal_from_string_amended_witness :
    prep_decimal_from_string "12.345" 2 = .ok ⟨1234, -2⟩ ∧
      (⟨1234, -2⟩ : PyDecimal).exp = -2 :=
  prep_decimal_from_string_amended.2.2.1 "12.345" 2 ⟨12345, -3⟩ ⟨1234, -2⟩
    (by omega) (by omega) (by decide) rfl rfl
